import Mathlib

/-!
Verification of the solana-token-validator pipeline: shallow embedding of the
risk aggregator (tokenAnalyzer.js), the honeypot detector (honeypotDetector.js
together with jupiterService.js), the holder analyzer (holderAnalyzer.js), and
the listener/queue/worker monitors (comprehensivePumpMonitor.js,
enhancedPumpFunMonitor.js), with proofs about the spec's claims.

Numbers: JS numbers are modelled as ℕ/ℤ where the code only holds integers and
as ℚ where fractional values arise; `Math.round` is modelled exactly
(round half toward positive infinity); `Math.max(0, x)` is modelled with
`max` on ℤ followed by `Int.toNat`.
-/

namespace TokenValidator

/-- JavaScript `Math.round`: round half toward positive infinity. -/
def jsRound (q : ℚ) : ℤ := ⌊q + 1/2⌋

/-- Character-list matching at the head, used to embed JS `String.includes`. -/
def isPrefixChars : List Char → List Char → Bool
  | [], _ => true
  | _ :: _, [] => false
  | a :: as, b :: bs => a == b && isPrefixChars as bs

/-- `containsSub pat s` holds when `pat` occurs contiguously inside `s`. -/
def containsSub (pat : List Char) : List Char → Bool
  | [] => isPrefixChars pat []
  | c :: rest => isPrefixChars pat (c :: rest) || containsSub pat rest

/-- JS `s.includes(pat)`. -/
def strIncludes (s pat : String) : Bool := containsSub pat.data s.data

/-! ## Risk aggregator and per-check analysis (src/analyzers/tokenAnalyzer.js) -/

namespace TokenAnalyzer

/-- Names of the checks assembled by `TokenAnalyzer.analyzeToken`. -/
inductive CheckName
  | basicInfo | authorities | programOwnership | metadata | holders
  | honeypot | marketData
deriving DecidableEq, Repr

/-- Fixed weights from `TokenAnalyzer.calculateRiskScore`. -/
def weights : CheckName → ℕ
  | .basicInfo => 10
  | .authorities => 40
  | .programOwnership => 20
  | .metadata => 5
  | .holders => 15
  | .honeypot => 30
  | .marketData => 5

/-- A check result as consumed by the aggregator: a numeric score and the
`skipped` flag (absent in JS means `false`), plus issue/warning lists. -/
structure CheckResult where
  score : ℕ
  skipped : Bool := false
  issues : List String := []
  warnings : List String := []
deriving DecidableEq, Repr

/-- One step of the `forEach` accumulation in `calculateRiskScore`:
non-skipped results contribute `score * weight` and `weight`. -/
def accumCheck (acc : ℕ × ℕ) (entry : CheckName × CheckResult) : ℕ × ℕ :=
  if entry.2.skipped then acc
  else (acc.1 + entry.2.score * weights entry.1, acc.2 + weights entry.1)

/-- `TokenAnalyzer.calculateRiskScore`: weight-normalized rounded mean over
non-skipped checks, falling back to 50 when no check contributes weight. -/
def calculateRiskScore (checks : List (CheckName × CheckResult)) : ℤ :=
  let acc := checks.foldl accumCheck (0, 0)
  if 0 < acc.2 then jsRound ((acc.1 : ℚ) / (acc.2 : ℚ)) else 50

/-- `TokenAnalyzer.getSafetyLevel` (note: a HIGHER score is SAFER). -/
def getSafetyLevel (score : ℤ) : String :=
  if score ≥ 80 then "🟢 SAFE"
  else if score ≥ 60 then "🟡 CAUTION"
  else if score ≥ 40 then "🟠 RISKY"
  else "🔴 DANGEROUS"

/-- The aggregator formula as the spec words it:
`riskScore = Σ(checkScore_i × weight_i) / Σ(weight_i)` over all non-skipped
checks, with the documented neutral fallback when no check contributes. -/
def riskScoreSpecFormula (checks : List (CheckName × CheckResult)) : ℤ :=
  let live := checks.filter (fun entry => !entry.2.skipped)
  let num := (live.map (fun entry => entry.2.score * weights entry.1)).sum
  let den := (live.map (fun entry => weights entry.1)).sum
  if 0 < den then jsRound ((num : ℚ) / (den : ℚ)) else 50

/-- Parsed mint-account data as returned by `solanaService.getTokenMintInfo`. -/
structure MintInfo where
  mintAuthority : Option String
  freezeAuthority : Option String
  decimals : ℕ
deriving DecidableEq, Repr

/-- `TokenAnalyzer.analyzeAuthorities`, success path: each active authority
adds one issue; `score = max(0, 100 - issues*40 - warnings*10)`. -/
def analyzeAuthorities (info : MintInfo) : CheckResult :=
  let issues :=
    (if info.mintAuthority.isSome
      then ["🔴 MINT AUTHORITY NOT REVOKED - Supply can be inflated!"] else []) ++
    (if info.freezeAuthority.isSome
      then ["🔴 FREEZE AUTHORITY NOT REVOKED - Accounts can be frozen!"] else [])
  { score := (max 0 (100 - (issues.length : ℤ) * 40)).toNat
    issues := issues }

/-- The fixed allow-list of standard token programs. -/
def standardPrograms : List String :=
  ["TokenkegQfeZyiNwAJbNbGKPFXCWuBvf9Ss623VQ5DA",
   "TokenzQdBNbLqP5VEhdkAS6EPFLC1PHnBqCXEpPxuEb"]

/-- `TokenAnalyzer.analyzeProgramOwnership`, success path, as a function of the
fetched owner (`none` models a missing account). -/
def analyzeProgramOwnership (owner : Option String) : CheckResult :=
  match owner with
  | none => { score := 0, issues := ["Token account not found"] }
  | some o =>
    if standardPrograms.contains o then { score := 100 }
    else { score := 20, issues := ["🔴 Non-standard program owner: " ++ o] }

/-- Off-chain/Metaplex metadata as returned by `metadataService`. -/
structure TokenMetadata where
  name : Option String
  symbol : Option String
  source : String
deriving DecidableEq, Repr

/-- Outcome of a timeout-guarded collaborator call: the timer fired first, the
call settled with a value, or the call threw with a message. -/
inductive FetchOutcome (α : Type)
  | timeout
  | ok (value : α)
  | failed (msg : String)

/-- `TokenAnalyzer.analyzeMetadataWithTimeout` as a function of the guarded
call's outcome. -/
def analyzeMetadataWithTimeout :
    FetchOutcome (Option TokenMetadata) → CheckResult
  | .timeout =>
    { score := 70, skipped := true, warnings := ["Metadata analysis timed out"] }
  | .failed m => { score := 0, issues := [m] }
  | .ok md =>
    let warnings :=
      (if (md.bind TokenMetadata.name).isSome then []
       else ["🟡 No token name found"]) ++
      (if (md.bind TokenMetadata.symbol).isSome then []
       else ["🟡 No token symbol found"]) ++
      (if (md.map TokenMetadata.source).getD "" = "BASIC"
       then ["🟡 No Metaplex metadata found"] else [])
    { score := (max 0 (100 - (warnings.length : ℤ) * 5)).toNat
      warnings := warnings }

/-- `TokenAnalyzer.analyzeHoldersWithTimeout` as a function of the guarded
call's outcome (the success path passes the holder analyzer's result through).
-/
def analyzeHoldersWithTimeout : FetchOutcome CheckResult → CheckResult
  | .timeout =>
    { score := 70, skipped := true,
      warnings := ["Holder analysis skipped - token too popular or network slow"] }
  | .failed m => { score := 0, issues := [m] }
  | .ok r => r

/-- The honeypot detector's output as consumed by `runHoneypotDetection`:
the overall probability and (when the detector exposes a `swapSimulation`
test, which the shipped detector never does) its `canSell` flag. -/
structure HoneypotOutput where
  overall : ℕ
  swapSimulationCanSell : Option Bool := none
deriving DecidableEq, Repr

/-- `TokenAnalyzer.runHoneypotDetection` as a function of the guarded call's
outcome. -/
def runHoneypotDetection : FetchOutcome HoneypotOutput → CheckResult
  | .timeout =>
    { score := 50, skipped := true,
      warnings := ["Honeypot detection timed out - Jupiter API may be unavailable"] }
  | .failed m => { score := 30, issues := [m] }
  | .ok r =>
    let issues :=
      (if r.overall > 70 then ["🔴 HIGH HONEYPOT RISK"] else []) ++
      (if r.swapSimulationCanSell = some false
       then ["🔴 CANNOT SELL TOKENS - Confirmed honeypot!"] else [])
    let warnings :=
      if r.overall > 70 then []
      else if r.overall > 40 then ["🟡 Moderate honeypot risk"] else []
    { score := (max 0 (100 - (r.overall : ℤ))).toNat
      issues := issues
      warnings := warnings }

/-- A Jupiter price response (`none` models a missing price). -/
structure PriceData where
  price : ℚ
deriving DecidableEq, Repr

/-- `TokenAnalyzer.analyzeMarketData` as a function of the guarded call's
outcome.  Note the failure path reports a fixed warning and drops the
exception message, unlike the other guarded checks. -/
def analyzeMarketData : FetchOutcome (Option PriceData) → CheckResult
  | .timeout =>
    { score := 70, skipped := true, warnings := ["Market data unavailable"] }
  | .failed _ => { score := 50, warnings := ["Failed to fetch price data"] }
  | .ok p =>
    { score := if p.isSome then 100 else 50
      warnings := if p.isSome then [] else ["No price data available"] }

/-- The checks map assembled by `TokenAnalyzer.analyzeToken` with every
optional check enabled: all seven entries are always present, whatever each
guarded call's outcome. -/
def analyzeTokenChecks (bi au po : CheckResult)
    (om : FetchOutcome (Option TokenMetadata)) (oh : FetchOutcome CheckResult)
    (ohp : FetchOutcome HoneypotOutput) (omd : FetchOutcome (Option PriceData)) :
    List (CheckName × CheckResult) :=
  [(.basicInfo, bi), (.authorities, au), (.programOwnership, po),
   (.metadata, analyzeMetadataWithTimeout om),
   (.holders, analyzeHoldersWithTimeout oh),
   (.honeypot, runHoneypotDetection ohp),
   (.marketData, analyzeMarketData omd)]

end TokenAnalyzer

/-! ## Holder distribution (src/analyzers/holderAnalyzer.js) -/

namespace HolderAnalyzer

/-- A processed holder entry: its share of supply in percent and its
classified type (`"PROGRAM"` for executable accounts). -/
structure Holder where
  percentage : ℚ
  type : String := "HOLDER"
deriving DecidableEq, Repr

/-- Concentration metrics from `HolderAnalyzer.calculateConcentration`. -/
structure Concentration where
  top1Percentage : ℚ
  top5Percentage : ℚ
  top10Percentage : ℚ
  herfindahlIndex : ℚ
deriving DecidableEq, Repr

/-- `HolderAnalyzer.calculateConcentration`. -/
def calculateConcentration (holders : List Holder) : Concentration :=
  match holders with
  | [] => ⟨0, 0, 0, 0⟩
  | _ =>
    { top1Percentage := ((holders.head?.map Holder.percentage).getD 0)
      top5Percentage := ((holders.take 5).map Holder.percentage).sum
      top10Percentage := ((holders.take 10).map Holder.percentage).sum
      herfindahlIndex :=
        (holders.map (fun h => (h.percentage / 100) * (h.percentage / 100))).sum }

/-- `HolderAnalyzer.assessHolderRisks`: the threshold ladder of deductions
from a base score of 100, clamped at 0. -/
def assessHolderRisks (c : Concentration) (holders : List Holder) :
    TokenAnalyzer.CheckResult :=
  let d1 : ℤ := if c.top1Percentage > 50 then 40
    else if c.top1Percentage > 30 then 20 else 0
  let i1 := if c.top1Percentage > 50 then ["🔴 Single holder controls majority of supply"] else []
  let w1 := if ¬ (c.top1Percentage > 50) ∧ c.top1Percentage > 30
    then ["🟡 Top holder controls large share of supply"] else []
  let d10 : ℤ := if c.top10Percentage > 80 then 30
    else if c.top10Percentage > 60 then 15 else 0
  let i10 := if c.top10Percentage > 80 then ["🔴 Top 10 holders control most of supply"] else []
  let w10 := if ¬ (c.top10Percentage > 80) ∧ c.top10Percentage > 60
    then ["🟡 Top 10 holders control much of supply"] else []
  let dh : ℤ := if c.herfindahlIndex > (1/4 : ℚ) then 25
    else if c.herfindahlIndex > (3/20 : ℚ) then 15 else 0
  let ih := if c.herfindahlIndex > (1/4 : ℚ)
    then ["🔴 Extremely concentrated holder distribution"] else []
  let wh := if ¬ (c.herfindahlIndex > (1/4 : ℚ)) ∧ c.herfindahlIndex > (3/20 : ℚ)
    then ["🟡 Highly concentrated holder distribution"] else []
  let programHolders := (holders.filter (fun h => h.type = "PROGRAM")).length
  let dp : ℤ := if programHolders > 0 then 10 else 0
  let wp := if programHolders > 0
    then ["🟡 program-controlled holder accounts detected"] else []
  { score := (max 0 (100 - d1 - d10 - dh - dp)).toNat
    issues := i1 ++ i10 ++ ih
    warnings := w1 ++ w10 ++ wh ++ wp }

/-- The holders CheckResult produced for a concrete holder distribution. -/
def holderCheckOf (holders : List Holder) : TokenAnalyzer.CheckResult :=
  assessHolderRisks (calculateConcentration holders) holders

end HolderAnalyzer

/-! ## Swap simulation (src/services/jupiterService.js) -/

namespace JupiterService

/-- A Jupiter quote as used by `simulateSwap`: `outAmount` (a string in JS;
`none`/`some ""` are the falsy cases), the parsed price impact, and the
route-plan length when a route plan is present. -/
structure Quote where
  outAmount : Option String
  priceImpactPct : ℚ
  routePlanLength : Option ℕ
deriving DecidableEq, Repr

/-- JS truthiness of the `outAmount` field. -/
def outAmountTruthy (q : Quote) : Bool :=
  match q.outAmount with
  | none => false
  | some s => !s.isEmpty

/-- The `honeypotAnalysis` sub-record of a `simulateSwap` result.  In the
no-buy-route branch the code omits the `probability` field, hence `Option`. -/
structure HoneypotAnalysis where
  isHoneypot : Bool
  confidence : ℚ
  probability : Option ℕ
  indicators : List String
  severity : String
deriving DecidableEq, Repr

/-- The value returned by `JupiterService.simulateSwap`. -/
structure SimResult where
  canBuy : Bool
  canSell : Bool
  honeypotAnalysis : Option HoneypotAnalysis
deriving DecidableEq, Repr

/-- `JupiterService.simulateSwap` as a function of the two quote calls'
results (`Except` models a thrown `getSwapQuote`; a `sell` throw reaches the
surrounding catch, which reports `canBuy = false`). -/
def simulateSwap (buyRes sellRes : Except String (Option Quote)) : SimResult :=
  match buyRes with
  | .error _ =>
    { canBuy := false, canSell := false
      honeypotAnalysis := some
        { isHoneypot := false, confidence := 3/10, probability := some 30
          indicators := ["SIMULATION_FAILED"], severity := "MEDIUM" } }
  | .ok buyQuote =>
    if (buyQuote.map outAmountTruthy).getD false = false then
      { canBuy := false, canSell := false
        honeypotAnalysis := some
          { isHoneypot := true, confidence := 8/10, probability := none
            indicators := ["NO_BUY_ROUTE"], severity := "CRITICAL" } }
    else
      match sellRes with
      | .error _ =>
        { canBuy := false, canSell := false
          honeypotAnalysis := some
            { isHoneypot := false, confidence := 3/10, probability := some 30
              indicators := ["SIMULATION_FAILED"], severity := "MEDIUM" } }
      | .ok sellQuote =>
        let canSell := sellQuote.isSome
        let bq := buyQuote.getD ⟨none, 0, none⟩
        let prob : ℕ :=
          if ¬ canSell then 95
          else
            (if bq.priceImpactPct > 10 then 20 else 0) +
            (if ((sellQuote.map Quote.priceImpactPct).getD 0) > 15 then 30 else 0) +
            (if bq.routePlanLength = some 1 then 10 else 0)
        let indicators : List String :=
          if ¬ canSell then ["CANNOT_SELL"]
          else
            (if bq.priceImpactPct > 10 then ["HIGH_BUY_IMPACT"] else []) ++
            (if ((sellQuote.map Quote.priceImpactPct).getD 0) > 15
              then ["HIGH_SELL_IMPACT"] else []) ++
            (if bq.routePlanLength = some 1 then ["LIMITED_ROUTES"] else [])
        { canBuy := true, canSell := canSell
          honeypotAnalysis := some
            { isHoneypot := prob > 50
              confidence := min (9/10 : ℚ) ((prob : ℚ) / 100)
              probability := some prob
              indicators := indicators
              severity := if prob > 80 then "CRITICAL"
                else if prob > 50 then "HIGH" else "LOW" } }

end JupiterService

/-! ## Honeypot detector (src/analyzers/honeypotDetector.js, enhanced /
Jupiter-backed version) -/

namespace HoneypotDetector

/-- One sub-test's result inside the honeypot detector. -/
structure TestResult where
  riskScore : ℕ
  severity : String
  issues : List String := []
deriving DecidableEq, Repr

/-- `HoneypotDetector.analyzeAuthorities`, success path. -/
def analyzeAuthorities (info : TokenAnalyzer.MintInfo) : TestResult :=
  let riskScore :=
    (if info.mintAuthority.isSome then 40 else 0) +
    (if info.freezeAuthority.isSome then 50 else 0)
  { riskScore := riskScore
    severity := if riskScore > 70 then "CRITICAL"
      else if riskScore > 30 then "HIGH" else "LOW"
    issues :=
      (if info.mintAuthority.isSome then ["MINT_AUTHORITY_ACTIVE"] else []) ++
      (if info.freezeAuthority.isSome then ["FREEZE_AUTHORITY_ACTIVE"] else []) }

/-- `HoneypotDetector.analyzeProgram`, success path, as a function of the
fetched owner (`none` models a missing account). -/
def analyzeProgram (owner : Option String) : TestResult :=
  match owner with
  | none => { riskScore := 90, severity := "CRITICAL", issues := ["ACCOUNT_NOT_FOUND"] }
  | some o =>
    if TokenAnalyzer.standardPrograms.contains o then
      { riskScore := 0, severity := "LOW" }
    else
      { riskScore := 60, severity := "HIGH", issues := ["NON_STANDARD_PROGRAM"] }

/-- `HoneypotDetector.analyzeSupplyMetrics`, success path. -/
def analyzeSupplyMetrics (totalSupply : ℚ) (decimals : ℕ) : TestResult :=
  let s1 : ℕ := if totalSupply = 0 then 80
    else if totalSupply > (1000000000000 : ℚ) then 15 else 0
  let s2 : ℕ := if decimals > 18 ∨ decimals = 0 then 10 else 0
  let riskScore := s1 + s2
  { riskScore := riskScore
    severity := if riskScore > 60 then "CRITICAL"
      else if riskScore > 20 then "MEDIUM" else "LOW"
    issues :=
      (if totalSupply = 0 then ["ZERO_SUPPLY"]
       else if totalSupply > (1000000000000 : ℚ) then ["EXTREMELY_HIGH_SUPPLY"] else []) ++
      (if decimals > 18 ∨ decimals = 0 then ["UNUSUAL_DECIMALS"] else []) }

/-- `HoneypotDetector.runTradingSimulation` as a function of Jupiter
connectivity and the swap-simulation result. -/
def runTradingSimulation (apiAvailable : Bool)
    (result : JupiterService.SimResult) : TestResult :=
  if ¬ apiAvailable then { riskScore := 20, severity := "LOW" }
  else
    let base : ℕ :=
      (if ¬ result.canBuy then 80 else 0) + (if ¬ result.canSell then 90 else 0)
    let riskScore : ℕ :=
      match result.honeypotAnalysis with
      | none => base
      | some ha => max base ((ha.probability).getD 0)
    let issues : List String :=
      (if ¬ result.canBuy then ["CANNOT_BUY_TOKEN"] else []) ++
      (if ¬ result.canSell then ["CANNOT_SELL_TOKEN"] else []) ++
      ((result.honeypotAnalysis.map JupiterService.HoneypotAnalysis.indicators).getD [])
    { riskScore := riskScore
      severity := if riskScore > 80 then "CRITICAL"
        else if riskScore > 50 then "HIGH" else "LOW"
      issues := issues }

/-- The four sub-tests assembled by `HoneypotDetector.detectHoneypot`. -/
structure Tests where
  authorityAnalysis : TestResult
  programAnalysis : TestResult
  supplyAnalysis : TestResult
  tradingSimulation : TestResult
deriving DecidableEq, Repr

/-- `HoneypotDetector.calculateHoneypotProbability`: the weighted mean of the
four sub-test scores (weights 0.3 / 0.2 / 0.15 / 0.35), rounded and clamped
to [0, 100]. -/
def calculateHoneypotProbability (tests : Tests) : ℕ :=
  let totalRisk : ℚ :=
    (tests.authorityAnalysis.riskScore : ℚ) * (3/10) +
    (tests.programAnalysis.riskScore : ℚ) * (2/10) +
    (tests.supplyAnalysis.riskScore : ℚ) * (15/100) +
    (tests.tradingSimulation.riskScore : ℚ) * (35/100)
  let totalWeight : ℚ := 3/10 + 2/10 + 15/100 + 35/100
  let overall := jsRound (totalRisk / totalWeight)
  (max 0 (min 100 overall)).toNat

/-- `HoneypotDetector.generateVerdict`. -/
def generateVerdict (overall : ℕ) : String :=
  if overall ≥ 80 then "CONFIRMED_HONEYPOT"
  else if overall ≥ 60 then "LIKELY_HONEYPOT"
  else if overall ≥ 40 then "SUSPICIOUS"
  else if overall ≥ 20 then "CAUTION_ADVISED"
  else "LOW_RISK"

end HoneypotDetector

/-! ## Detection listener, bounded queue and worker
(src/services/comprehensivePumpMonitor.js) -/

namespace ComprehensivePumpMonitor

/-- A detection event built by the listener on a match. -/
structure TokenEvent where
  signature : String
  slot : ℕ
  logs : List String
  detectedAt : ℕ
deriving DecidableEq, Repr

/-- The monitor's running counters. -/
structure Stats where
  detected : ℕ
  analyzed : ℕ
  apiCalls : ℕ
deriving DecidableEq, Repr

/-- The monitor's mutable state. -/
structure MonitorState where
  tokenQueue : List TokenEvent
  isAnalyzing : Bool
  processedSignatures : List String
  stats : Stats
deriving DecidableEq, Repr

/-- Queue capacity (`this.maxQueueSize = 6`). -/
def maxQueueSize : ℕ := 6

/-- Minimum event age before analysis (`this.analysisDelay = 25000` ms). -/
def analysisDelay : ℕ := 25000

/-- The constructor's initial state. -/
def initState : MonitorState :=
  { tokenQueue := [], isAnalyzing := false, processedSignatures := []
    stats := { detected := 0, analyzed := 0, apiCalls := 0 } }

/-- `ComprehensivePumpMonitor.isRealTokenCreation`. -/
def isRealTokenCreation (logs : List String) : Bool :=
  ["Program log: Instruction: InitializeMint2",
   "Program log: Instruction: Create"].any
    (fun indicator => logs.any (fun log => strIncludes log indicator))

/-- `ComprehensivePumpMonitor.processTokenCreation`: drop already-seen
signatures before classification; on a classified match record the signature,
count the detection, and enqueue only while the queue is below capacity. -/
def processTokenCreation (s : MonitorState) (signature : String) (slot : ℕ)
    (logs : List String) (now : ℕ) : MonitorState :=
  if signature ∈ s.processedSignatures then s
  else if ¬ isRealTokenCreation logs then s
  else
    let s1 : MonitorState :=
      { s with processedSignatures := signature :: s.processedSignatures
               stats := { s.stats with detected := s.stats.detected + 1 } }
    if s1.tokenQueue.length < maxQueueSize then
      { s1 with tokenQueue :=
          s1.tokenQueue ++ [⟨signature, slot, logs, now⟩] }
    else s1

/-- The signature enqueued by one `processTokenCreation` call, if any
(ghost observation used to state the dedup property). -/
def pushedSignature (s : MonitorState) (signature : String)
    (logs : List String) : List String :=
  if signature ∈ s.processedSignatures then []
  else if ¬ isRealTokenCreation logs then []
  else if s.tokenQueue.length < maxQueueSize then [signature] else []

/-- The synchronous prefix of one `startComprehensiveWorker` interval
callback: no-op while analyzing or empty; shift the oldest event; if it is
younger than the age gate, unshift it back and clear the flag; otherwise keep
the flag set and hand the event to analysis.  The second component is the
event whose analysis starts. -/
def workerTick (s : MonitorState) (now : ℕ) :
    MonitorState × Option TokenEvent :=
  if s.isAnalyzing then (s, none)
  else
    match s.tokenQueue with
    | [] => (s, none)
    | tokenEvent :: rest =>
      if now - tokenEvent.detectedAt < analysisDelay then
        ({ s with tokenQueue := tokenEvent :: rest, isAnalyzing := false }, none)
      else
        ({ s with tokenQueue := rest, isAnalyzing := true }, some tokenEvent)

/-- Completion of an in-flight analysis (the `try`/`finally` tail of the
worker callback): the flag clears whether the analysis succeeded or threw;
`analyzed` counts successes; `apiCalls` advances by the calls the analysis
made. -/
def finishAnalysis (s : MonitorState) (success : Bool) (calls : ℕ) :
    MonitorState :=
  { s with isAnalyzing := false
           stats := { s.stats with
             analyzed := s.stats.analyzed + (if success then 1 else 0)
             apiCalls := s.stats.apiCalls + calls } }

/-- Worker start/finish observations for stating single-flight. -/
inductive WEvent
  | wstart
  | wfinish
deriving DecidableEq, Repr

/-- The worker events emitted by one tick. -/
def tickEvents (s : MonitorState) (now : ℕ) : List WEvent :=
  match (workerTick s now).2 with
  | some _ => [.wstart]
  | none => []

/-- Reachable states of the listener/queue/worker system, together with the
worker-event trace and the history of signatures the listener enqueued. -/
inductive Reaches : MonitorState → List WEvent → List String → Prop
  | init : Reaches initState [] []
  | notify {s tr hist} (signature : String) (slot : ℕ) (logs : List String)
      (now : ℕ) :
      Reaches s tr hist →
      Reaches (processTokenCreation s signature slot logs now) tr
        (hist ++ pushedSignature s signature logs)
  | tick {s tr hist} (now : ℕ) :
      Reaches s tr hist →
      Reaches (workerTick s now).1 (tr ++ tickEvents s now) hist
  | finish {s tr hist} (success : Bool) (calls : ℕ) :
      Reaches s tr hist → s.isAnalyzing = true →
      Reaches (finishAnalysis s success calls) (tr ++ [.wfinish]) hist

/-- Run the single-flight automaton over a worker-event trace: `some b` is
"well-formed so far, analysis in flight iff `b`", `none` is a violation
(a start while in flight, or a finish while idle). -/
def altStep : Option Bool → WEvent → Option Bool
  | some false, .wstart => some true
  | some true, .wfinish => some false
  | _, _ => none

/-- A trace is single-flight when the automaton accepts it from idle. -/
def altOk (tr : List WEvent) : Option Bool := tr.foldl altStep (some false)

end ComprehensivePumpMonitor

/-! ## Queue-based monitor with drop counter
(src/services/enhancedPumpFunMonitor.js, bundled in optimizedPumpMonitor.js) -/

namespace EnhancedPumpFunMonitor

/-- The enhanced monitor's running counters (note the `skipped` drop
counter, which `ComprehensivePumpMonitor` lacks). -/
structure Stats where
  detected : ℕ
  queued : ℕ
  analyzed : ℕ
  skipped : ℕ
deriving DecidableEq, Repr

/-- A queued detection event. -/
structure TokenEvent where
  signature : String
  slot : ℕ
  detectedAt : ℕ
deriving DecidableEq, Repr

/-- The enhanced monitor's mutable state. -/
structure MonitorState where
  tokenQueue : List TokenEvent
  isAnalyzing : Bool
  processedSignatures : List String
  stats : Stats
deriving DecidableEq, Repr

/-- Queue capacity (`this.maxQueueSize = 100`). -/
def maxQueueSize : ℕ := 100

/-- The token-creation pattern test in `handlePumpFunLog`. -/
def hasTokenCreation (logs : List String) : Bool :=
  logs.any (fun log =>
    strIncludes log "Program log: Instruction: InitializeMint2" ||
    strIncludes log "InitializeMint2" ||
    strIncludes log "CreateToken" ||
    (strIncludes log "create" && strIncludes log "mint"))

/-- `EnhancedPumpFunMonitor.handlePumpFunLog`: duplicates are dropped; a
matching detection is recorded and counted; it is queued while below capacity
and otherwise dropped with the `skipped` counter incremented — never raised
as an exception. -/
def handlePumpFunLog (s : MonitorState) (signature : String) (slot : ℕ)
    (logs : List String) (now : ℕ) : MonitorState :=
  if signature ∈ s.processedSignatures then s
  else if hasTokenCreation logs then
    let s1 : MonitorState :=
      { s with processedSignatures := signature :: s.processedSignatures
               stats := { s.stats with detected := s.stats.detected + 1 } }
    if s1.tokenQueue.length < maxQueueSize then
      { s1 with tokenQueue := s1.tokenQueue ++ [⟨signature, slot, now⟩]
                stats := { s1.stats with queued := s1.stats.queued + 1 } }
    else
      { s1 with stats := { s1.stats with skipped := s1.stats.skipped + 1 } }
  else s

end EnhancedPumpFunMonitor

/-! ## Concrete instances used in counterexamples and witnesses -/

open TokenAnalyzer HolderAnalyzer JupiterService HoneypotDetector in
/-- Checks map with the metadata check skipped and a non-skipped authorities
check, exercising the skip-aware denominator. -/
def c4SkipChecks : List (CheckName × CheckResult) :=
  [(.authorities, { score := 0 }),
   (.metadata, { score := 70, skipped := true })]

open TokenAnalyzer in
/-- Same as `c4SkipChecks` except the metadata check reports its neutral
default score (70) instead of being skipped. -/
def c4DefaultChecks : List (CheckName × CheckResult) :=
  [(.authorities, { score := 0 }),
   (.metadata, { score := 70 })]

open JupiterService in
/-- Swap simulation where the buy quote succeeds and the sell quote fails
(the Jupiter API returned no sell route without throwing). -/
def c1Sim : SimResult :=
  simulateSwap (.ok (some ⟨some "1000", 1, some 3⟩)) (.ok none)

open HoneypotDetector in
/-- Honeypot sub-tests for a token with both authorities revoked, a standard
owning program, a benign supply — and a failing sell leg. -/
def c1Tests : Tests :=
  { authorityAnalysis := analyzeAuthorities ⟨none, none, 9⟩
    programAnalysis :=
      analyzeProgram (some "TokenkegQfeZyiNwAJbNbGKPFXCWuBvf9Ss623VQ5DA")
    supplyAnalysis := analyzeSupplyMetrics 1000000 9
    tradingSimulation := runTradingSimulation true c1Sim }

/-- A holder distribution whose top-1 holder owns 70% of supply. -/
def c2Holders : List HolderAnalyzer.Holder :=
  [⟨70, "HOLDER"⟩, ⟨3, "HOLDER"⟩, ⟨1, "HOLDER"⟩]

open TokenAnalyzer in
/-- Checks for scenario 2: active freeze authority, non-standard owning
program, top-1 holder at 70%, and every other check perfect. -/
def c2Checks : List (CheckName × CheckResult) :=
  [(.basicInfo, { score := 100 }),
   (.authorities, analyzeAuthorities ⟨none, some "Freeze1111", 9⟩),
   (.programOwnership, analyzeProgramOwnership (some "EvilProgram1111")),
   (.metadata, { score := 100 }),
   (.holders, HolderAnalyzer.holderCheckOf c2Holders),
   (.honeypot, { score := 100 }),
   (.marketData, { score := 100 })]

/-- Log lines that classify as a token creation. -/
def creationLogs : List String := ["Program log: Instruction: InitializeMint2"]

open ComprehensivePumpMonitor in
/-- A previously queued detection event. -/
def c9Dummy : ComprehensivePumpMonitor.TokenEvent :=
  ⟨"prevsig", 1, creationLogs, 0⟩

open ComprehensivePumpMonitor in
/-- Comprehensive-monitor state whose queue is at capacity. -/
def c9FullState : ComprehensivePumpMonitor.MonitorState :=
  { tokenQueue := List.replicate maxQueueSize c9Dummy
    isAnalyzing := false
    processedSignatures := []
    stats := ⟨6, 0, 0⟩ }

open ComprehensivePumpMonitor in
/-- The same monitor state with room in the queue. -/
def c9OkState : ComprehensivePumpMonitor.MonitorState :=
  { tokenQueue := []
    isAnalyzing := false
    processedSignatures := []
    stats := ⟨6, 0, 0⟩ }

open EnhancedPumpFunMonitor in
/-- Enhanced-monitor state whose queue is at capacity. -/
def c9EnhancedFull : EnhancedPumpFunMonitor.MonitorState :=
  { tokenQueue := List.replicate maxQueueSize ⟨"oldsig", 0, 0⟩
    isAnalyzing := false
    processedSignatures := []
    stats := ⟨0, 0, 0, 0⟩ }

open ComprehensivePumpMonitor in
/-- State reached after one matching notification on the fresh monitor. -/
def c7State1 : ComprehensivePumpMonitor.MonitorState :=
  processTokenCreation initState "sig1" 5 creationLogs 0

open ComprehensivePumpMonitor in
/-- State reached from `c7State1` by an aged worker tick. -/
def c7State2 : ComprehensivePumpMonitor.MonitorState :=
  (workerTick c7State1 30000).1

/-! ## Theorems -/

theorem jsRound_le {q : ℚ} {k : ℤ} (h : q < (k : ℚ) + 1/2) : jsRound q ≤ k := by
  have hlt : ⌊q + 1/2⌋ < k + 1 := Int.floor_lt.mpr (by push_cast; linarith)
  unfold jsRound
  omega

theorem jsRound_nonneg {q : ℚ} (h : 0 ≤ q) : 0 ≤ jsRound q := by
  unfold jsRound
  exact Int.le_floor.mpr (by push_cast; linarith)

theorem jsRound_natDiv_le {num den : ℕ} {k : ℤ} (hden : 0 < den)
    (h : 2 * (num : ℤ) < (2 * k + 1) * den) :
    jsRound ((num : ℚ) / (den : ℚ)) ≤ k := by
  apply jsRound_le
  rw [div_lt_iff₀ (by exact_mod_cast hden)]
  have hq : ((2 * (num : ℤ) : ℤ) : ℚ) < (((2 * k + 1) * den : ℤ) : ℚ) := by
    exact_mod_cast h
  push_cast at hq ⊢
  linarith

namespace TokenAnalyzer

theorem foldl_accumCheck (l : List (CheckName × CheckResult)) :
    ∀ a b : ℕ, l.foldl accumCheck (a, b) =
      (a + ((l.filter (fun e => !e.2.skipped)).map
              (fun e => e.2.score * weights e.1)).sum,
       b + ((l.filter (fun e => !e.2.skipped)).map
              (fun e => weights e.1)).sum) := by
  induction l with
  | nil => intro a b; simp
  | cons hd tl ih =>
    intro a b
    by_cases h : hd.2.skipped
    · simp [accumCheck, h, ih]
    · simp only [List.foldl_cons, accumCheck, h, if_false, List.filter_cons,
        Bool.not_eq_true']
      simp [h, ih, List.filter, List.map, List.sum_cons]
      constructor <;> ring

theorem calculateRiskScore_eq_formula (checks : List (CheckName × CheckResult)) :
    calculateRiskScore checks = riskScoreSpecFormula checks := by
  unfold calculateRiskScore riskScoreSpecFormula
  rw [foldl_accumCheck]
  simp

theorem score_sum_le (l : List (CheckName × CheckResult))
    (h : ∀ p ∈ l, p.2.score ≤ 100) :
    ((l.map fun e => e.2.score * weights e.1).sum) ≤
      100 * ((l.map fun e => weights e.1).sum) := by
  induction l with
  | nil => simp
  | cons hd tl ih =>
    simp only [List.map_cons, List.sum_cons, Nat.mul_add]
    have h1 : hd.2.score ≤ 100 := h hd (by simp)
    have h2 := ih (fun p hp => h p (by simp [hp]))
    have h3 : hd.2.score * weights hd.1 ≤ 100 * weights hd.1 :=
      Nat.mul_le_mul_right _ h1
    omega

end TokenAnalyzer

open TokenAnalyzer in
/-- C3: for every checks map whose scores lie in 0–100, the aggregated
riskScore lies in [0, 100] (no NaN can arise: the division is guarded), and
when every check is skipped it equals the neutral fallback 50. -/
theorem c3_riskScore_range (checks : List (CheckName × CheckResult))
    (h : ∀ p ∈ checks, p.2.score ≤ 100) :
    0 ≤ calculateRiskScore checks ∧ calculateRiskScore checks ≤ 100 ∧
      ((∀ p ∈ checks, p.2.skipped = true) → calculateRiskScore checks = 50) := by
  rw [calculateRiskScore_eq_formula]
  unfold riskScoreSpecFormula
  by_cases hd : 0 < ((checks.filter (fun e => !e.2.skipped)).map
      (fun e => weights e.1)).sum
  · simp only [hd, if_true]
    have hnum : ((checks.filter (fun e => !e.2.skipped)).map
        (fun e => e.2.score * weights e.1)).sum ≤
        100 * ((checks.filter (fun e => !e.2.skipped)).map
        (fun e => weights e.1)).sum :=
      score_sum_le _ (fun p hp => h p (List.mem_of_mem_filter hp))
    refine ⟨?_, ?_, ?_⟩
    · exact jsRound_nonneg (by positivity)
    · apply jsRound_natDiv_le hd
      omega
    · intro hall
      exfalso
      have hnil : checks.filter (fun e => !e.2.skipped) = [] := by
        apply List.filter_eq_nil_iff.mpr
        intro a ha
        simp [hall a ha]
      rw [hnil] at hd
      simp at hd
  · simp [hd]

/-- C3 witness: the bounds and the all-skipped fallback at a concrete
checks map. -/
theorem c3_riskScore_range_witness :
    0 ≤ TokenAnalyzer.calculateRiskScore c4SkipChecks ∧
      TokenAnalyzer.calculateRiskScore c4SkipChecks ≤ 100 ∧
      ((∀ p ∈ c4SkipChecks, p.2.skipped = true) →
        TokenAnalyzer.calculateRiskScore c4SkipChecks = 50) :=
  c3_riskScore_range c4SkipChecks (by decide)

open TokenAnalyzer in
/-- C4: the aggregator equals the spec's weight-normalized sum over exactly
the non-skipped checks (skipped excluded from numerator and denominator),
and skipping the metadata check is distinguishable from it reporting its
neutral default score 70 under a fixed assignment of another check. -/
theorem c4_skip_aware_aggregation :
    (∀ checks : List (CheckName × CheckResult),
      calculateRiskScore checks = riskScoreSpecFormula checks) ∧
    calculateRiskScore c4SkipChecks ≠ calculateRiskScore c4DefaultChecks :=
  ⟨calculateRiskScore_eq_formula, by
    norm_num [calculateRiskScore, accumCheck, weights, jsRound,
      c4SkipChecks, c4DefaultChecks]⟩

open HoneypotDetector JupiterService in
/-- C1 counterexample: the buy quote succeeds and the sell quote fails, both
authorities are revoked, yet the honeypot check's overall sub-score is the
weighted mean 33 — far below 90 — and the verdict is CAUTION_ADVISED, not the
top severity band. -/
theorem c1_counterexample :
    c1Sim.canBuy = true ∧ c1Sim.canSell = false ∧
    calculateHoneypotProbability c1Tests = 33 ∧
    ¬ 90 ≤ calculateHoneypotProbability c1Tests ∧
    generateVerdict (calculateHoneypotProbability c1Tests) ≠
      "CONFIRMED_HONEYPOT" := by
  have h1 : c1Tests.authorityAnalysis.riskScore = 0 := by decide
  have h2 : c1Tests.programAnalysis.riskScore = 0 := by decide
  have h3 : c1Tests.supplyAnalysis.riskScore = 0 := by decide
  have h4 : c1Tests.tradingSimulation.riskScore = 95 := by decide
  have hoverall : calculateHoneypotProbability c1Tests = 33 := by
    unfold calculateHoneypotProbability
    rw [h1, h2, h3, h4]
    norm_num [jsRound]
    rfl
  refine ⟨rfl, rfl, hoverall, ?_, ?_⟩ <;> rw [hoverall] <;> decide

open HoneypotDetector in
/-- C1 (amended): when the trading simulation reports a successful buy and a
failed sell, the trading-simulation sub-test itself scores at least 90 with
CRITICAL severity and a CANNOT_SELL_TOKEN issue; but the overall sub-score is
the weighted mean of all four sub-tests, so with the other sub-tests at zero
risk it is 33 and the verdict is CAUTION_ADVISED. -/
theorem c1_trading_sim_critical (result : JupiterService.SimResult)
    (hb : result.canBuy = true) (hs : result.canSell = false) :
    90 ≤ (runTradingSimulation true result).riskScore ∧
    (runTradingSimulation true result).severity = "CRITICAL" ∧
    "CANNOT_SELL_TOKEN" ∈ (runTradingSimulation true result).issues := by
  unfold runTradingSimulation
  rcases result with ⟨cb, cs, ha⟩
  subst hb hs
  rcases ha with _ | ⟨hav⟩ <;> simp

/-- C1 witness: the amended sub-test property at the concrete buy-ok /
sell-fail simulation. -/
theorem c1_trading_sim_critical_witness :
    90 ≤ (HoneypotDetector.runTradingSimulation true c1Sim).riskScore ∧
    (HoneypotDetector.runTradingSimulation true c1Sim).severity = "CRITICAL" ∧
    "CANNOT_SELL_TOKEN" ∈
      (HoneypotDetector.runTradingSimulation true c1Sim).issues :=
  c1_trading_sim_critical c1Sim rfl rfl

namespace TokenAnalyzer

theorem analyzeAuthorities_skipped (info : MintInfo) :
    (analyzeAuthorities info).skipped = false := rfl

theorem analyzeProgramOwnership_skipped (o : Option String) :
    (analyzeProgramOwnership o).skipped = false := by
  cases o with
  | none => rfl
  | some s =>
    simp only [analyzeProgramOwnership]
    split <;> rfl

theorem analyzeAuthorities_score_le (mintAuth : Option String) (fz : String)
    (d : ℕ) : (analyzeAuthorities ⟨mintAuth, some fz, d⟩).score ≤ 60 := by
  cases mintAuth <;> simp [analyzeAuthorities]

theorem analyzeProgramOwnership_score (o : String)
    (h : o ∉ standardPrograms) :
    (analyzeProgramOwnership (some o)).score = 20 := by
  simp [analyzeProgramOwnership, h]

end TokenAnalyzer

namespace HolderAnalyzer

theorem holderCheckOf_skipped (hs : List Holder) :
    (holderCheckOf hs).skipped = false := rfl

theorem holderCheckOf_score_le (h0 : Holder) (rest : List Holder)
    (h70 : h0.percentage = 70) (hpos : ∀ h ∈ rest, 0 ≤ h.percentage) :
    (holderCheckOf (h0 :: rest)).score ≤ 20 := by
  have hsum : (0:ℚ) ≤ ((rest.map Holder.percentage).take 9).sum := by
    apply List.sum_nonneg
    intro x hx
    have hx' := List.take_subset _ _ hx
    obtain ⟨a, ha, rfl⟩ := List.mem_map.mp hx'
    exact hpos a ha
  have hsum' : (0:ℚ) ≤ ((rest.take 9).map Holder.percentage).sum := by
    rw [List.map_take]
    exact hsum
  have hsq : (0:ℚ) ≤
      (rest.map (fun h => (h.percentage / 100) * (h.percentage / 100))).sum := by
    apply List.sum_nonneg
    intro x hx
    obtain ⟨a, _, rfl⟩ := List.mem_map.mp hx
    exact mul_self_nonneg _
  have htop1 : (calculateConcentration (h0 :: rest)).top1Percentage = 70 := by
    simp [calculateConcentration, h70]
  have h50 : (calculateConcentration (h0 :: rest)).top1Percentage > 50 := by
    rw [htop1]; norm_num
  have h60 : (calculateConcentration (h0 :: rest)).top10Percentage > 60 := by
    simp only [calculateConcentration, List.take_succ_cons, List.map_cons,
      List.sum_cons, h70]
    linarith
  have h25 : (calculateConcentration (h0 :: rest)).herfindahlIndex > 1/4 := by
    simp only [calculateConcentration, List.map_cons, List.sum_cons, h70]
    nlinarith
  unfold holderCheckOf assessHolderRisks
  dsimp only
  split_ifs <;> first | linarith [h50, h60, h25] | decide

end HolderAnalyzer

theorem jsRound_div_lt_80 (N D : ℚ) (hD : 0 < D) (h : 2 * N < 159 * D) :
    jsRound (N / D) < 80 := by
  unfold jsRound
  rw [Int.floor_lt]
  have hND : N / D < 159 / 2 := by
    rw [div_lt_iff₀ hD]
    linarith
  push_cast
  linarith

open TokenAnalyzer in
/-- Weighted aggregation bound for the scenario-2 shape: authorities at most
60, program ownership at most 20, holders at most 20, every other check
arbitrary (including skipped). -/
theorem sevenChecks_lt_80 (r1 r2 r3 r4 r5 r6 r7 : CheckResult)
    (h1 : r1.score ≤ 100) (h2 : r2.score ≤ 60) (h2s : r2.skipped = false)
    (h3 : r3.score ≤ 20) (h3s : r3.skipped = false)
    (h4 : r4.score ≤ 100)
    (h5 : r5.score ≤ 20) (h5s : r5.skipped = false)
    (h6 : r6.score ≤ 100) (h7 : r7.score ≤ 100) :
    calculateRiskScore
      [(.basicInfo, r1), (.authorities, r2), (.programOwnership, r3),
       (.metadata, r4), (.holders, r5), (.honeypot, r6), (.marketData, r7)]
      < 80 := by
  have c1 : ((r1.score : ℚ)) ≤ 100 := by exact_mod_cast h1
  have c2 : ((r2.score : ℚ)) ≤ 60 := by exact_mod_cast h2
  have c3 : ((r3.score : ℚ)) ≤ 20 := by exact_mod_cast h3
  have c4 : ((r4.score : ℚ)) ≤ 100 := by exact_mod_cast h4
  have c5 : ((r5.score : ℚ)) ≤ 20 := by exact_mod_cast h5
  have c6 : ((r6.score : ℚ)) ≤ 100 := by exact_mod_cast h6
  have c7 : ((r7.score : ℚ)) ≤ 100 := by exact_mod_cast h7
  rw [calculateRiskScore_eq_formula]
  unfold riskScoreSpecFormula
  cases hb1 : r1.skipped <;> cases hb4 : r4.skipped <;>
    cases hb6 : r6.skipped <;> cases hb7 : r7.skipped <;>
      simp [List.filter_cons, hb1, hb4, hb6, hb7, h2s, h3s, h5s, weights] <;>
        (apply jsRound_div_lt_80 _ _ (by positivity)) <;> push_cast <;> linarith

open TokenAnalyzer HolderAnalyzer in
/-- C2 counterexample: with an active freeze authority, a non-standard owning
program and a 70% top-1 holder (all other checks perfect), the code computes
riskScore 65 — not ≥ 80 — with safety level CAUTION; and the safety-level step
function maps scores ≥ 80 to SAFE, not to an "extremely dangerous" band
(the code's score polarity is higher-is-safer, inverted from the spec's). -/
theorem c2_counterexample :
    calculateRiskScore c2Checks = 65 ∧
    ¬ 80 ≤ calculateRiskScore c2Checks ∧
    getSafetyLevel (calculateRiskScore c2Checks) = "🟡 CAUTION" ∧
    getSafetyLevel 80 = "🟢 SAFE" := by
  have hauth : (analyzeAuthorities ⟨none, some "Freeze1111", 9⟩).score = 60 := by
    decide
  have hprog : (analyzeProgramOwnership (some "EvilProgram1111")).score = 20 := by
    decide
  have hhold : (holderCheckOf c2Holders).score = 20 := by
    unfold c2Holders holderCheckOf calculateConcentration assessHolderRisks
    norm_num
    decide
  have hrisk : calculateRiskScore c2Checks = 65 := by
    unfold c2Checks calculateRiskScore
    simp [accumCheck, analyzeAuthorities_skipped, analyzeProgramOwnership_skipped,
      holderCheckOf_skipped, hauth, hprog, hhold, weights]
    norm_num [jsRound]
  refine ⟨hrisk, by rw [hrisk]; decide, by rw [hrisk]; decide, by decide⟩

open TokenAnalyzer HolderAnalyzer in
/-- C2 (amended): in the code the final score is a safety score
(higher = safer).  For every analysis whose checks report an active freeze
authority (authorities result as computed by the code), a non-standard owning
program, and a holder distribution whose top-1 holder owns 70%, the final
riskScore stays below 80 whatever the other checks report; and the
safety-level step function maps scores ≥ 80 to SAFE and scores < 40 to
DANGEROUS — the spec's band polarity is inverted relative to the code. -/
theorem c2_scenario_score_lt_80 (b m hp md : CheckResult)
    (hbs : b.score ≤ 100) (hms : m.score ≤ 100) (hhps : hp.score ≤ 100)
    (hmds : md.score ≤ 100)
    (mintAuth : Option String) (freezeAddr : String) (decs : ℕ)
    (owner : String) (hns : owner ∉ standardPrograms)
    (h0 : HolderAnalyzer.Holder) (rest : List HolderAnalyzer.Holder)
    (h70 : h0.percentage = 70) (hpos : ∀ h ∈ rest, 0 ≤ h.percentage) :
    calculateRiskScore
      [(.basicInfo, b),
       (.authorities, analyzeAuthorities ⟨mintAuth, some freezeAddr, decs⟩),
       (.programOwnership, analyzeProgramOwnership (some owner)),
       (.metadata, m),
       (.holders, holderCheckOf (h0 :: rest)),
       (.honeypot, hp),
       (.marketData, md)] < 80 ∧
    (∀ n : ℤ, 80 ≤ n → getSafetyLevel n = "🟢 SAFE") ∧
    (∀ n : ℤ, n < 40 → getSafetyLevel n = "🔴 DANGEROUS") := by
  refine ⟨?_, ?_, ?_⟩
  · exact sevenChecks_lt_80 _ _ _ _ _ _ _
      hbs (analyzeAuthorities_score_le mintAuth freezeAddr decs)
      (analyzeAuthorities_skipped _)
      (le_of_eq (analyzeProgramOwnership_score owner hns))
      (analyzeProgramOwnership_skipped _)
      hms (holderCheckOf_score_le h0 rest h70 hpos) (holderCheckOf_skipped _)
      hhps hmds
  · intro n hn
    unfold getSafetyLevel
    rw [if_pos hn]
  · intro n hn
    unfold getSafetyLevel
    rw [if_neg (by omega), if_neg (by omega), if_neg (by omega)]

open TokenAnalyzer HolderAnalyzer in
/-- C2 witness: the amended bound at the concrete scenario-2 checks map. -/
theorem c2_scenario_score_lt_80_witness :
    calculateRiskScore
      [(.basicInfo, ({ score := 100 } : CheckResult)),
       (.authorities, analyzeAuthorities ⟨none, some "Freeze1111", 9⟩),
       (.programOwnership, analyzeProgramOwnership (some "EvilProgram1111")),
       (.metadata, ({ score := 100 } : CheckResult)),
       (.holders, holderCheckOf (⟨70, "HOLDER"⟩ :: [⟨3, "HOLDER"⟩, ⟨1, "HOLDER"⟩])),
       (.honeypot, ({ score := 100 } : CheckResult)),
       (.marketData, ({ score := 100 } : CheckResult))] < 80 ∧
    (∀ n : ℤ, 80 ≤ n → getSafetyLevel n = "🟢 SAFE") ∧
    (∀ n : ℤ, n < 40 → getSafetyLevel n = "🔴 DANGEROUS") :=
  c2_scenario_score_lt_80 { score := 100 } { score := 100 } { score := 100 }
    { score := 100 } (by decide) (by decide) (by decide) (by decide)
    none "Freeze1111" 9 "EvilProgram1111" (by decide)
    ⟨70, "HOLDER"⟩ [⟨3, "HOLDER"⟩, ⟨1, "HOLDER"⟩] rfl
    (by intro h hh; fin_cases hh <;> norm_num)

open TokenAnalyzer in
/-- C5 counterexample: the market-data check's failure path does not carry
the exception message as an issue (its issues list is empty, the message is
dropped for a generic warning), and the holders timeout warning does not
contain the words "timed out". -/
theorem c5_counterexample :
    (analyzeMarketData (FetchOutcome.failed "boom")).issues = [] ∧
    ¬ "boom" ∈ (analyzeMarketData (FetchOutcome.failed "boom")).issues ∧
    ((analyzeHoldersWithTimeout
        (FetchOutcome.timeout : FetchOutcome CheckResult)).warnings.all
      (fun w => !(strIncludes w "timed out"))) = true := by
  refine ⟨rfl, by simp [analyzeMarketData], by decide⟩

open TokenAnalyzer in
/-- C5 (amended): each timeout-guarded check converts a timeout into a
skipped CheckResult with its documented neutral default score (metadata 70,
holders 70, honeypot 50, market data 70) and a warning — the metadata and
honeypot warnings say "timed out", while the holders and market-data warnings
use different wording; an internal exception is converted into a CheckResult
carrying the message as an issue for metadata, holders and honeypot (scores
0, 0, 30), while market data reports a fixed warning and drops the message;
and the assembled checks map always contains all seven checks, so no outcome
aborts the analysis or omits the other checks. -/
theorem c5_guarded_checks :
    (analyzeMetadataWithTimeout .timeout =
      { score := 70, skipped := true,
        warnings := ["Metadata analysis timed out"] }) ∧
    (analyzeHoldersWithTimeout .timeout =
      { score := 70, skipped := true,
        warnings := ["Holder analysis skipped - token too popular or network slow"] }) ∧
    (runHoneypotDetection .timeout =
      { score := 50, skipped := true,
        warnings := ["Honeypot detection timed out - Jupiter API may be unavailable"] }) ∧
    (analyzeMarketData .timeout =
      { score := 70, skipped := true,
        warnings := ["Market data unavailable"] }) ∧
    (strIncludes "Metadata analysis timed out" "timed out" = true) ∧
    (strIncludes "Honeypot detection timed out - Jupiter API may be unavailable"
      "timed out" = true) ∧
    (∀ m : String, analyzeMetadataWithTimeout (.failed m) =
      { score := 0, issues := [m] }) ∧
    (∀ m : String, analyzeHoldersWithTimeout (.failed m) =
      { score := 0, issues := [m] }) ∧
    (∀ m : String, runHoneypotDetection (.failed m) =
      { score := 30, issues := [m] }) ∧
    (∀ m : String, analyzeMarketData (.failed m) =
      { score := 50, warnings := ["Failed to fetch price data"] }) ∧
    (∀ bi au po om oh ohp omd,
      (analyzeTokenChecks bi au po om oh ohp omd).map Prod.fst =
        [.basicInfo, .authorities, .programOwnership, .metadata, .holders,
         .honeypot, .marketData]) := by
  refine ⟨rfl, rfl, rfl, rfl, by decide, by decide,
    fun m => rfl, fun m => rfl, fun m => rfl, fun m => rfl,
    fun bi au po om oh ohp omd => rfl⟩

namespace ComprehensivePumpMonitor

theorem altOk_append (tr : List WEvent) (e : WEvent) :
    altOk (tr ++ [e]) = altStep (altOk tr) e := by
  unfold altOk
  rw [List.foldl_append]
  rfl

/-- Combined inductive invariant of the listener/queue/worker system:
bounded queue, single-flight worker trace, and listener-level dedup. -/
theorem reaches_invariant {s : MonitorState} {tr : List WEvent}
    {hist : List String} (h : Reaches s tr hist) :
    s.tokenQueue.length ≤ maxQueueSize ∧
    altOk tr = some s.isAnalyzing ∧
    hist.Nodup ∧
    (∀ x ∈ hist, x ∈ s.processedSignatures) := by
  induction h with
  | init => simp [initState, altOk, maxQueueSize]
  | notify sig slot logs now h ih =>
    obtain ⟨hq, ha, hn, hc⟩ := ih
    rename_i s tr hist
    by_cases h1 : sig ∈ s.processedSignatures
    · have hp : processTokenCreation s sig slot logs now = s := by
        simp [processTokenCreation, h1]
      have hps : pushedSignature s sig logs = [] := by
        simp [pushedSignature, h1]
      rw [hp, hps, List.append_nil]
      exact ⟨hq, ha, hn, hc⟩
    · by_cases h2 : isRealTokenCreation logs
      · by_cases h3 : s.tokenQueue.length < maxQueueSize
        · have hp : processTokenCreation s sig slot logs now =
              { s with
                processedSignatures := sig :: s.processedSignatures
                stats := { s.stats with detected := s.stats.detected + 1 }
                tokenQueue := s.tokenQueue ++ [⟨sig, slot, logs, now⟩] } := by
            simp [processTokenCreation, h1, h2, h3]
          have hps : pushedSignature s sig logs = [sig] := by
            simp [pushedSignature, h1, h2, h3]
          rw [hp, hps]
          have hnotin : sig ∉ hist := fun hmem => h1 (hc sig hmem)
          refine ⟨?_, ha, ?_, ?_⟩
          · dsimp only
            simp only [List.length_append, List.length_singleton]
            omega
          · exact hn.append (List.nodup_singleton sig)
              (fun a hma hmb => by
                simp at hmb
                subst hmb
                exact hnotin hma)
          · intro x hx
            rcases List.mem_append.mp hx with hx | hx
            · exact List.mem_cons_of_mem _ (hc x hx)
            · simp at hx
              subst hx
              exact List.mem_cons_self _ _
        · have hp : processTokenCreation s sig slot logs now =
              { s with
                processedSignatures := sig :: s.processedSignatures
                stats := { s.stats with detected := s.stats.detected + 1 } } := by
            simp [processTokenCreation, h1, h2, h3]
          have hps : pushedSignature s sig logs = [] := by
            simp [pushedSignature, h1, h2, h3]
          rw [hp, hps, List.append_nil]
          exact ⟨hq, ha, hn, fun x hx => List.mem_cons_of_mem _ (hc x hx)⟩
      · have hp : processTokenCreation s sig slot logs now = s := by
          simp [processTokenCreation, h1, h2]
        have hps : pushedSignature s sig logs = [] := by
          simp [pushedSignature, h1, h2]
        rw [hp, hps, List.append_nil]
        exact ⟨hq, ha, hn, hc⟩
  | tick now h ih =>
    obtain ⟨hq, ha, hn, hc⟩ := ih
    rename_i s tr hist
    cases hA : s.isAnalyzing with
    | true =>
      have hw : workerTick s now = (s, none) := by simp [workerTick, hA]
      have hte : tickEvents s now = [] := by simp [tickEvents, hw]
      rw [hw, hte, List.append_nil]
      exact ⟨hq, ha, hn, hc⟩
    | false =>
      rcases hqe : s.tokenQueue with _ | ⟨e, rest⟩
      · have hw : workerTick s now = (s, none) := by simp [workerTick, hA, hqe]
        have hte : tickEvents s now = [] := by simp [tickEvents, hw]
        rw [hw, hte, List.append_nil]
        exact ⟨hq, ha, hn, hc⟩
      · by_cases hage : now - e.detectedAt < analysisDelay
        · have hw : workerTick s now =
              ({ s with tokenQueue := e :: rest, isAnalyzing := false },
               none) := by
            simp [workerTick, hA, hqe, hage]
          have hte : tickEvents s now = [] := by simp [tickEvents, hw]
          rw [hw, hte, List.append_nil]
          refine ⟨?_, ?_, hn, hc⟩
          · dsimp only
            rw [← hqe]
            exact hq
          · dsimp only
            rw [ha, hA]
        · have hw : workerTick s now =
              ({ s with tokenQueue := rest, isAnalyzing := true }, some e) := by
            simp [workerTick, hA, hqe, hage]
          have hte : tickEvents s now = [.wstart] := by simp [tickEvents, hw]
          rw [hw, hte]
          refine ⟨?_, ?_, hn, hc⟩
          · dsimp only
            have hlen : (e :: rest).length ≤ maxQueueSize := hqe ▸ hq
            simp at hlen
            omega
          · dsimp only
            rw [altOk_append, ha, hA]
            rfl
  | finish success calls h hflag ih =>
    obtain ⟨hq, ha, hn, hc⟩ := ih
    refine ⟨hq, ?_, hn, hc⟩
    rw [altOk_append, ha, hflag]
    rfl

end ComprehensivePumpMonitor

open ComprehensivePumpMonitor in
/-- C6: in every reachable state of the listener/queue/worker system the
queue length never exceeds the capacity; an enqueue attempted while the queue
is full leaves the queue unchanged (no eviction, no blocking — the call just
returns); and a worker tick on an empty queue dequeues nothing and leaves the
state unchanged. -/
theorem c6_queue_bounded {s : ComprehensivePumpMonitor.MonitorState}
    {tr : List ComprehensivePumpMonitor.WEvent} {hist : List String}
    (h : Reaches s tr hist) :
    s.tokenQueue.length ≤ maxQueueSize ∧
    (∀ sig slot logs now, maxQueueSize ≤ s.tokenQueue.length →
      (processTokenCreation s sig slot logs now).tokenQueue = s.tokenQueue) ∧
    (∀ now, s.tokenQueue = [] →
      (workerTick s now).1 = s ∧ (workerTick s now).2 = none) := by
  refine ⟨(reaches_invariant h).1, ?_, ?_⟩
  · intro sig slot logs now hfull
    by_cases h1 : sig ∈ s.processedSignatures
    · simp [processTokenCreation, h1]
    · by_cases h2 : isRealTokenCreation logs
      · have h3 : ¬ s.tokenQueue.length < maxQueueSize := by omega
        simp [processTokenCreation, h1, h2, h3]
      · simp [processTokenCreation, h1, h2]
  · intro now he
    cases hA : s.isAnalyzing <;> simp [workerTick, hA, he]

open ComprehensivePumpMonitor in
/-- C6 witness: the bundle at the initial (reachable) state. -/
theorem c6_queue_bounded_witness :
    initState.tokenQueue.length ≤ maxQueueSize ∧
    (∀ sig slot logs now, maxQueueSize ≤ initState.tokenQueue.length →
      (processTokenCreation initState sig slot logs now).tokenQueue =
        initState.tokenQueue) ∧
    (∀ now, initState.tokenQueue = [] →
      (workerTick initState now).1 = initState ∧
      (workerTick initState now).2 = none) :=
  c6_queue_bounded Reaches.init

open ComprehensivePumpMonitor in
/-- C7: single-flight worker.  Along every reachable execution the trace of
analysis start/finish events is accepted by the alternation automaton (a
start only from the idle state, a finish only from the in-flight state), and
the automaton's state coincides with the in-flight flag; hence no two
analyses' start/end intervals ever overlap. -/
theorem c7_single_flight {s : ComprehensivePumpMonitor.MonitorState}
    {tr : List ComprehensivePumpMonitor.WEvent} {hist : List String}
    (h : Reaches s tr hist) :
    altOk tr = some s.isAnalyzing :=
  (reaches_invariant h).2.1

open ComprehensivePumpMonitor in
/-- C7 witness: a concrete execution — one detection, one aged worker tick
that starts the analysis, one completion — whose trace start/finish pair is
accepted with the flag back to idle. -/
theorem c7_single_flight_witness :
    altOk [ComprehensivePumpMonitor.WEvent.wstart,
           ComprehensivePumpMonitor.WEvent.wfinish] = some false := by
  have h0 : Reaches initState [] [] := Reaches.init
  have h1 := Reaches.notify "sig1" 5 creationLogs 0 h0
  have h2 := Reaches.tick 30000 h1
  have h3 := Reaches.finish true 13 h2 (by decide)
  exact c7_single_flight h3

open ComprehensivePumpMonitor in
/-- C8: when the oldest queued event is younger than the age gate, the worker
tick puts it back at the front and starts no analysis: the whole state —
queue contents and order included — is unchanged by the cycle. -/
theorem c8_age_gate_putback (s : ComprehensivePumpMonitor.MonitorState)
    (now : ℕ) (e : ComprehensivePumpMonitor.TokenEvent)
    (rest : List ComprehensivePumpMonitor.TokenEvent)
    (hA : s.isAnalyzing = false) (hq : s.tokenQueue = e :: rest)
    (hage : now - e.detectedAt < analysisDelay) :
    (workerTick s now).1 = s ∧ (workerTick s now).2 = none := by
  rcases s with ⟨q, ia, ps, st⟩
  simp only at hA hq
  subst hA
  subst hq
  simp [workerTick, hage]

open ComprehensivePumpMonitor in
/-- C8 witness: putback at a concrete state holding one young event. -/
theorem c8_age_gate_putback_witness :
    (workerTick c7State1 100).1 = c7State1 ∧
    (workerTick c7State1 100).2 = none :=
  c8_age_gate_putback c7State1 100 ⟨"sig1", 5, creationLogs, 0⟩ []
    (by decide) (by decide) (by decide)

open ComprehensivePumpMonitor in
/-- C9 counterexample: in `ComprehensivePumpMonitor`, processing a matching
detection with the queue at capacity drops it (no exception — the call is a
total function — and the queue stays at capacity), but no drop counter
exists: the stats change is identical to the stats change of a successful
enqueue from a state with room, so no metric distinguishes the drop. -/
theorem c9_counterexample :
    (processTokenCreation c9FullState "newsig" 2 creationLogs 100).stats =
      (processTokenCreation c9OkState "newsig" 2 creationLogs 100).stats ∧
    (processTokenCreation c9FullState "newsig" 2 creationLogs 100).tokenQueue.length =
      maxQueueSize := by
  constructor <;> decide

open EnhancedPumpFunMonitor in
/-- C9 (amended): the drop counter lives in `EnhancedPumpFunMonitor`: with
its queue at capacity, the (C+1)-th matching detection is dropped without an
exception, `stats.skipped` increments, `stats.detected` increments, and the
queue is unchanged (length stays C); in `ComprehensivePumpMonitor` the
detection is likewise dropped silently but no drop counter is incremented. -/
theorem c9_enhanced_drop_counter (s : EnhancedPumpFunMonitor.MonitorState)
    (sig : String) (slot : ℕ) (logs : List String) (now : ℕ)
    (hfull : s.tokenQueue.length = EnhancedPumpFunMonitor.maxQueueSize)
    (hfresh : sig ∉ s.processedSignatures)
    (hmatch : hasTokenCreation logs = true) :
    (handlePumpFunLog s sig slot logs now).tokenQueue = s.tokenQueue ∧
    (handlePumpFunLog s sig slot logs now).stats.skipped =
      s.stats.skipped + 1 ∧
    (handlePumpFunLog s sig slot logs now).stats.detected =
      s.stats.detected + 1 := by
  have hnl : ¬ s.tokenQueue.length < EnhancedPumpFunMonitor.maxQueueSize := by
    omega
  simp [handlePumpFunLog, hfresh, hmatch, hnl]

open EnhancedPumpFunMonitor in
/-- C9 witness: the enhanced monitor's drop counter at a concrete full
state. -/
theorem c9_enhanced_drop_counter_witness :
    (handlePumpFunLog c9EnhancedFull "newsig" 2 creationLogs 100).tokenQueue =
      c9EnhancedFull.tokenQueue ∧
    (handlePumpFunLog c9EnhancedFull "newsig" 2 creationLogs 100).stats.skipped =
      c9EnhancedFull.stats.skipped + 1 ∧
    (handlePumpFunLog c9EnhancedFull "newsig" 2 creationLogs 100).stats.detected =
      c9EnhancedFull.stats.detected + 1 :=
  c9_enhanced_drop_counter c9EnhancedFull "newsig" 2 creationLogs 100
    (by decide) (by decide) (by decide)

open ComprehensivePumpMonitor in
/-- C10: listener-level dedup.  Along every reachable execution the history
of enqueued signatures has no duplicate (at most one detection per signature
ever enters the queue); a notification whose signature is already in the
ProcessedSet leaves the state unchanged — it is dropped before
classification, whatever its log lines; and a fresh matching notification
records its signature in the ProcessedSet. -/
theorem c10_dedup {s : ComprehensivePumpMonitor.MonitorState}
    {tr : List ComprehensivePumpMonitor.WEvent} {hist : List String}
    (h : Reaches s tr hist) :
    hist.Nodup ∧
    (∀ sig slot logs now, sig ∈ s.processedSignatures →
      processTokenCreation s sig slot logs now = s) ∧
    (∀ sig slot logs now, sig ∉ s.processedSignatures →
      isRealTokenCreation logs = true →
      sig ∈ (processTokenCreation s sig slot logs now).processedSignatures) := by
  refine ⟨(reaches_invariant h).2.2.1, ?_, ?_⟩
  · intro sig slot logs now hmem
    simp [processTokenCreation, hmem]
  · intro sig slot logs now hmem hreal
    by_cases h3 : s.tokenQueue.length < maxQueueSize <;>
      simp [processTokenCreation, hmem, hreal, h3]

open ComprehensivePumpMonitor in
/-- C10 witness: the dedup bundle at the initial (reachable) state. -/
theorem c10_dedup_witness :
    ([] : List String).Nodup ∧
    (∀ sig slot logs now, sig ∈ initState.processedSignatures →
      processTokenCreation initState sig slot logs now = initState) ∧
    (∀ sig slot logs now, sig ∉ initState.processedSignatures →
      isRealTokenCreation logs = true →
      sig ∈
        (processTokenCreation initState sig slot logs now).processedSignatures) :=
  c10_dedup Reaches.init

end TokenValidator
